import Mathlib

/-!
Shallow embedding of the `easy_server` HTTP dispatch engine.

The repository contains two variants of the same engine:
* `server.go` — middleware chain as a singly linked list (`middleware`), a
  separate terminal `handler`, and a pointer cursor (`engineContext`);
* the unnamed file — middleware chain as a slice whose last element is the
  handler, with an integer cursor (`reqContext`), plus `Node`/`Group`
  registration.

Chain units in Go are values of type `func(c Context)`, which may be `nil`.
We model a unit slot as `Option α` for an abstract unit type `α`
(`none` = Go `nil`).  The external router (`github.com/58kg/router`) and the
logging package are out-of-scope collaborators: the router's `Lookup` is an
explicit function parameter of `serveHTTP`, the router's `Register` is
recorded as the list of calls the engine makes to it, and the logger's
generated correlation id and captured stack are explicit parameters.
-/

namespace EasyServer

/-- A URL parameter extracted by the external router (`router.UrlParam`). -/
structure UrlParam where
  name : String
  value : String
deriving Repr, DecidableEq

/-- `Node` from the unnamed file: a single route registration request. -/
structure Node (α : Type) where
  method : String
  path : String
  middlewares : List (Option α)
  handler : Option α
deriving Repr, DecidableEq

/-- `routerValue`: the payload the engine stores in the external router. -/
structure RouterValue (α : Type) where
  middlewares : List (Option α)
  matchPath : String
deriving Repr, DecidableEq

/-- The engine's own registration state: the sequence of `r.Register` calls it
has issued to the external router, and the `allowedMethods` struct
(`s []string` plus the precomputed comma-joined `str`). -/
structure EngineState (α : Type) where
  routeCalls : List (String × String × RouterValue α)
  allowedMethods : List String
  allowedStr : String
deriving Repr, DecidableEq

/-- `New()`: fresh engine; Go zero values give an empty slice and empty string. -/
def initialEngine (α : Type) : EngineState α := ⟨[], [], ""⟩

/-- Lexicographic comparison of character lists.  Go's `sort.Strings` orders
strings bytewise; for valid UTF-8 the bytewise order coincides with the
lexicographic order on code points, which this computes. -/
def charsLe : List Char → List Char → Bool
  | [], _ => true
  | _ :: _, [] => false
  | a :: as, b :: bs =>
    if a < b then true
    else if b < a then false
    else charsLe as bs

/-- The string order used by `sort.Strings`, on the characters of the
strings. -/
def strLe (a b : String) : Prop := charsLe a.data b.data = true

instance : DecidableRel strLe := fun a b => by
  unfold strLe
  infer_instance

instance : IsTotal String strLe where
  total a b := by
    suffices H : ∀ x y : List Char, charsLe x y = true ∨ charsLe y x = true from
      H a.data b.data
    intro x
    induction x with
    | nil => intro y; exact Or.inl rfl
    | cons a as ih =>
      intro y
      cases y with
      | nil => exact Or.inr rfl
      | cons b bs =>
        by_cases hab : a < b
        · left
          simp [charsLe, hab]
        · by_cases hba : b < a
          · right
            simp [charsLe, hba]
          · have heq : a = b := le_antisymm (not_lt.mp hba) (not_lt.mp hab)
            subst heq
            rcases ih bs with h | h
            · left
              simp [charsLe, h]
            · right
              simp [charsLe, h]

instance : IsTrans String strLe where
  trans a b c h1 h2 := by
    suffices H : ∀ x y z : List Char,
        charsLe x y = true → charsLe y z = true → charsLe x z = true from
      H a.data b.data c.data h1 h2
    intro x
    induction x with
    | nil => intro y z _ _; rfl
    | cons a as ih =>
      intro y z h1 h2
      cases y with
      | nil => simp [charsLe] at h1
      | cons b bs =>
        cases z with
        | nil => simp [charsLe] at h2
        | cons c cs =>
          by_cases hab : a < b
          · by_cases hbc : b < c
            · simp [charsLe, lt_trans hab hbc]
            · by_cases hcb : c < b
              · simp [charsLe, hbc, hcb] at h2
              · have hbc' : b = c := le_antisymm (not_lt.mp hcb) (not_lt.mp hbc)
                subst hbc'
                simp [charsLe, hab]
          · by_cases hba : b < a
            · simp [charsLe, hab, hba] at h1
            · have hab' : a = b := le_antisymm (not_lt.mp hba) (not_lt.mp hab)
              subst hab'
              simp only [charsLe, if_neg (lt_irrefl a)] at h1
              by_cases hac : a < c
              · simp [charsLe, hac]
              · by_cases hca : c < a
                · simp [charsLe, hac, hca] at h2
                · simp only [charsLe, if_neg hac, if_neg hca] at h2 ⊢
                  exact ih bs cs h1 h2

/-- `engine.Register(node)`.  Appends the handler to the middleware slice,
panics if any unit is nil (returned as `some msg`, engine unchanged since the
check precedes every mutation), then registers with the router and updates the
allowed-methods set: early return if the method is present, otherwise append,
sort (`sort.Strings`) and rejoin (`strings.Join(s, ",")`). -/
def register {α : Type} (e : EngineState α) (node : Node α) :
    Option String × EngineState α :=
  let units := node.middlewares ++ [node.handler]
  if units.any Option.isNone then
    (some "middleware or handle of a node is nil", e)
  else
    let e1 : EngineState α :=
      { e with routeCalls := e.routeCalls ++ [(node.method, node.path, ⟨units, node.path⟩)] }
    if node.method ∈ e1.allowedMethods then
      (none, e1)
    else
      let s := List.insertionSort strLe (e1.allowedMethods ++ [node.method])
      (none, { e1 with allowedMethods := s, allowedStr := String.intercalate "," s })

/-- State after a whole sequence of `Register` calls (a panicking call leaves
the engine unchanged, as the nil check precedes every mutation). -/
def foldRegister {α : Type} (e : EngineState α) (ns : List (Node α)) : EngineState α :=
  ns.foldl (fun acc n => (register acc n).2) e

/-!
Slice-level model of `Register` / `RegisterGroup`.

`RegisterGroup`'s loop runs `v.Middlewares = append(group.Middlewares,
v.Middlewares...)` on the *same* `group.Middlewares` slice header each
iteration, and `Register` then appends the handler to the result.  When a
slice has spare capacity, Go's `append` writes in place into the shared
backing array, so a later iteration can overwrite elements still viewed by
an earlier child's registered chain.  To capture this the model carries an
explicit heap of backing arrays.  Every slice in this code is created at
offset 0 with its capacity running to the end of its array (slice literals,
`make`, and `append` results; the code never reslices), so a slice header is
just an array id and a length, and its capacity is its array's size. -/

/-- A Go slice header over the heap: backing-array id and length. -/
structure GoSlice where
  arr : Nat
  len : Nat
deriving Repr, DecidableEq

/-- A heap of backing arrays of chain units; an array's size is its
capacity, and Go zero-initializes unwritten slots (`none` = nil func). -/
abbrev Heap (α : Type) := List (List (Option α))

/-- `cap(s)`: the slice's capacity (its backing array's size). -/
def sliceCap {α : Type} (st : Heap α) (s : GoSlice) : Nat :=
  (st.getD s.arr []).length

/-- The elements a slice currently views (`s[0:len]`). -/
def sliceRead {α : Type} (st : Heap α) (s : GoSlice) : List (Option α) :=
  (st.getD s.arr []).take s.len

/-- Overwrite `xs` into a backing array starting at index `i`. -/
def writeAt {α : Type} (l : List (Option α)) (i : Nat) (xs : List (Option α)) :
    List (Option α) :=
  l.take i ++ xs ++ l.drop (i + xs.length)

/-- Go's `append(s, xs...)`: with spare capacity it writes into the shared
backing array in place; otherwise it allocates a fresh array (its contents
copied, the new capacity `grow n ≥ n` — Go's exact growth policy is
implementation-defined, so it is an oracle here). -/
def goAppend {α : Type} (grow : Nat → Nat) (st : Heap α) (s : GoSlice)
    (xs : List (Option α)) : Heap α × GoSlice :=
  if s.len + xs.length ≤ sliceCap st s then
    (st.set s.arr (writeAt (st.getD s.arr []) s.len xs), ⟨s.arr, s.len + xs.length⟩)
  else
    let n := s.len + xs.length
    let fresh := sliceRead st s ++ xs ++ List.replicate (max (grow n) n - n) none
    (st ++ [fresh], ⟨st.length, n⟩)

/-- `Node` with its middleware slice as a real slice header. -/
structure SliceNode (α : Type) where
  method : String
  path : String
  middlewares : GoSlice
  handler : Option α
deriving Repr, DecidableEq

/-- `Group` with its shared middleware slice as a real slice header. -/
structure SliceGroup (α : Type) where
  rootPath : String
  middlewares : GoSlice
  children : List (SliceNode α)
deriving Repr, DecidableEq

/-- Engine state at slice level: the heap, the `r.Register` calls (the
router keeps the slice *header* `routerValue.middlewares`, so its chain is
read back through the heap at dispatch time), and the allowed-methods
struct. -/
structure SliceEngine (α : Type) where
  heap : Heap α
  routeCalls : List (String × String × GoSlice × String)
  allowedMethods : List String
  allowedStr : String
deriving Repr, DecidableEq

/-- `engine.Register(node)` at slice level: append the handler to the
middleware slice (possibly writing in place), panic if any viewed unit is
nil (the append's heap effect already happened), then register with the
router and update the allowed-methods set as in `register`. -/
def registerSlice {α : Type} (grow : Nat → Nat) (e : SliceEngine α)
    (node : SliceNode α) : Option String × SliceEngine α :=
  match goAppend grow e.heap node.middlewares [node.handler] with
  | (h1, s1) =>
    if (sliceRead h1 s1).any Option.isNone then
      (some "middleware or handle of a node is nil", { e with heap := h1 })
    else
      let e1 : SliceEngine α :=
        { e with
            heap := h1,
            routeCalls := e.routeCalls ++ [(node.method, node.path, s1, node.path)] }
      if node.method ∈ e1.allowedMethods then
        (none, e1)
      else
        let s := List.insertionSort strLe (e1.allowedMethods ++ [node.method])
        (none, { e1 with allowedMethods := s, allowedStr := String.intercalate "," s })

/-- The loop body of `engine.RegisterGroup` at slice level: each iteration
appends the child's viewed middlewares to the *same* group slice header,
prefixes the path and registers; a panic from `Register` unwinds the loop. -/
def registerGroupSliceLoop {α : Type} (grow : Nat → Nat) (g : SliceGroup α) :
    SliceEngine α → List (SliceNode α) → Option String × SliceEngine α
  | e, [] => (none, e)
  | e, v :: rest =>
    match goAppend grow e.heap g.middlewares (sliceRead e.heap v.middlewares) with
    | (h1, s1) =>
      let v' : SliceNode α := { v with middlewares := s1, path := g.rootPath ++ v.path }
      match registerSlice grow { e with heap := h1 } v' with
      | (some msg, e') => (some msg, e')
      | (none, e') => registerGroupSliceLoop grow g e' rest

/-- `engine.RegisterGroup(group)` at slice level. -/
def registerGroupSlice {α : Type} (grow : Nat → Nat) (e : SliceEngine α)
    (g : SliceGroup α) : Option String × SliceEngine α :=
  registerGroupSliceLoop grow g e g.children

/-- Failing input for the group-flattening claim, units numbered: `L = 0`,
`M2 = 1`, `H1 = 2`, `H2 = 3`.  Array 0 backs the group's middleware slice
`[L]`: length 1 with spare capacity 4 (e.g. built by appending into
`make([]func(c Context), 0, 4)`).  Array 1 backs child 2's own middleware
slice `[M2]`; array 2 backs child 1's empty middleware slice. -/
def bugHeap : Heap Nat := [[some 0, none, none, none], [some 1], []]

/-- The group of the failing input: prefix `/api`, shared middlewares `[L]`
(with spare capacity), children `GET /a` (no middleware, handler `H1`) and
`POST /b` (middleware `[M2]`, handler `H2`). -/
def bugGroup : SliceGroup Nat :=
  ⟨"/api", ⟨0, 1⟩, [⟨"GET", "/a", ⟨2, 0⟩, some 2⟩, ⟨"POST", "/b", ⟨1, 1⟩, some 3⟩]⟩

/-- A fresh engine over the failing input's heap.  The growth oracle is
irrelevant here: every append fits in spare capacity. -/
def bugEngine : SliceEngine Nat := ⟨bugHeap, [], [], ""⟩

/-- `reqContext` from the unnamed file: the per-request context with an
integer cursor over the middleware slice (request/response handles omitted:
they are opaque to the cursor protocol). -/
structure ReqCtx (α : Type) where
  middlewares : List α
  curMW : Nat
  pathParam : List UrlParam
  matchPath : String
deriving Repr, DecidableEq

/-- `reqContext.Next`: if `curMW >= len(middlewares)` return `false` (state
untouched, nothing invoked); otherwise increment the cursor, invoke
`middlewares[curMW-1]` (the element at the pre-increment index) and return
`true`.  Result: (post-call state, invoked unit if any, returned boolean);
the Go code increments before the synchronous call, so the invoked unit
observes the post-increment cursor, which is the state returned here. -/
def ReqCtx.next {α : Type} (c : ReqCtx α) : ReqCtx α × Option α × Bool :=
  if c.curMW ≥ c.middlewares.length then
    (c, none, false)
  else
    ({ c with curMW := c.curMW + 1 }, c.middlewares[c.curMW]?, true)

/-- `c.applyNexts n`: the context state after `n` further calls to `Next`
(every call, nested inside a unit or sequential, is one such step on the
shared cursor). -/
def ReqCtx.applyNexts {α : Type} (c : ReqCtx α) : Nat → ReqCtx α
  | 0 => c
  | n + 1 => (c.next.1).applyNexts n

/-- `engineContext` from `server.go`: the remaining middleware linked list
(`curMW`, modelled as the list of units from the cursor on) and the separate
terminal `handler`. -/
structure EngineCtx (α : Type) where
  handler : α
  curMW : List α
deriving Repr, DecidableEq

/-- `engineContext.Next` from `server.go`: with a nil cursor it invokes the
terminal handler and returns `false`; otherwise it invokes the middleware at
the cursor, moves the cursor to `next`, and returns `true` (the Go code
advances the pointer only after the synchronous call returns). -/
def EngineCtx.next {α : Type} (c : EngineCtx α) : EngineCtx α × Option α × Bool :=
  match c.curMW with
  | [] => (c, some c.handler, false)
  | m :: rest => ({ c with curMW := rest }, some m, true)

/-- Modelled from the spec: the external `logs` package's response-header key
carrying the per-request correlation identifier (`logs.LogIdContextKey`); its
concrete string value lives outside `src/` and is irrelevant to the claims. -/
def logIdContextKey : String := "K_LOGID"

/-- An `http.Request` as far as dispatch inspects it. -/
structure Request where
  method : String
  path : String
deriving Repr, DecidableEq

/-- The trailing-slash toggle, on the character list of a path: strip the
final '/' if present, otherwise append '/'.  (`'/'` is a single ASCII byte,
so Go's last-byte test and byte slicing agree with the character-level
operation.) -/
def toggleSlashL (p : List Char) : List Char :=
  if p.getLast? = some '/' then p.dropLast else p ++ ['/']

/-- The trailing-slash toggle on paths, as in both `ServeHTTP` variants. -/
def toggleSlash (p : String) : String := ⟨toggleSlashL p.data⟩

/-- A critical log record: the recovered panic value and the captured stack
(`debug.Stack()`). -/
structure CriticalLog where
  err : String
  stack : String
deriving Repr, DecidableEq

/-- Which terminal action dispatch took for a request. -/
inductive Outcome (α : Type) where
  | methodNotAllowed (allow : String)
  | rootRedirect (location : String)
  | notFound
  | tsrRedirect (location : String)
  | chainRun (ctx : ReqCtx (Option α)) (panicMsg : Option String)
deriving Repr, DecidableEq

/-- The HTTP status the engine itself writes for an outcome (`none` when the
chain runs: then the units own the response). -/
def Outcome.status {α : Type} : Outcome α → Option Nat
  | .methodNotAllowed _ => some 405
  | .rootRedirect _ => some 308
  | .notFound => some 404
  | .tsrRedirect _ => some 308
  | .chainRun _ _ => none

/-- `true` exactly on the empty-path-normalization redirect. -/
def Outcome.isRootRedirect {α : Type} : Outcome α → Bool
  | .rootRedirect _ => true
  | _ => false

/-- Everything observable about one `ServeHTTP` call: the terminal action,
the `resp.Header().Set` calls the engine made (in order; the deferred
correlation-id set runs last), the critical log records, and the engine state
as seen by the next request (`ServeHTTP` never writes the engine's fields). -/
structure ServeResult (α : Type) where
  outcome : Outcome α
  headersSet : List (String × String)
  criticalLogs : List CriticalLog
  engineAfter : EngineState α
deriving Repr, DecidableEq

/-- `engine.ServeHTTP` (unnamed-file variant).  Parameters beyond the request:
`lookup` is the external router's `Lookup` (payload, params, redirect flag);
`behavior` abstracts the synchronous execution of `Next()` on the freshly
built context, yielding `some msg` when a chain unit panics with `msg`
(recovered at the engine's deferred barrier) and `none` on normal return;
`logId` is the generated correlation id and `stack` the stack capture the
logger would record on a panic. -/
def serveHTTP {α : Type} (e : EngineState α)
    (lookup : String → String → Option (RouterValue α) × List UrlParam × Bool)
    (behavior : ReqCtx (Option α) → Option String)
    (logId : String) (stack : String) (req : Request) : ServeResult α :=
  if req.method ∈ e.allowedMethods then
    if req.path = "" then
      ⟨.rootRedirect "/", [(logIdContextKey, logId)], [], e⟩
    else
      match lookup req.method req.path with
      | (some h, urlParams, _) =>
        let ctx : ReqCtx (Option α) := ⟨h.middlewares, 0, urlParams, h.matchPath⟩
        match behavior ctx with
        | some msg =>
          ⟨.chainRun ctx (some msg), [(logIdContextKey, logId)], [⟨msg, stack⟩], e⟩
        | none =>
          ⟨.chainRun ctx none, [(logIdContextKey, logId)], [], e⟩
      | (none, _, false) =>
        ⟨.notFound, [(logIdContextKey, logId)], [], e⟩
      | (none, _, true) =>
        ⟨.tsrRedirect (toggleSlash req.path), [(logIdContextKey, logId)], [], e⟩
  else
    ⟨.methodNotAllowed e.allowedStr,
      [("Allow", e.allowedStr), (logIdContextKey, logId)], [], e⟩

/-! ### Concrete fixtures used by the witness theorems -/

/-- A concrete engine: one registered call, method set `{GET}`. -/
def wEngine : EngineState Nat :=
  ⟨[("GET", "/u", ⟨[some 1, some 2], "/u"⟩)], ["GET"], "GET"⟩

/-- A concrete router payload: chain `[1, 2]` (last unit is the handler). -/
def wValue : RouterValue Nat := ⟨[some 1, some 2], "/u"⟩

/-- A router oracle that always reports an exact match with `wValue`. -/
def wLookupHit : String → String → Option (RouterValue Nat) × List UrlParam × Bool :=
  fun _ _ => (some wValue, [], false)

/-- A router oracle that never matches and offers no redirect. -/
def wLookupMiss : String → String → Option (RouterValue Nat) × List UrlParam × Bool :=
  fun _ _ => (none, [], false)

/-- A router oracle that never matches but always flags a slash redirect. -/
def wLookupTsr : String → String → Option (RouterValue Nat) × List UrlParam × Bool :=
  fun _ _ => (none, [], true)

/-- A chain whose units return normally. -/
def wBehaviorOk : ReqCtx (Option Nat) → Option String := fun _ => none

/-- A chain whose first invoked unit panics with `"boom"`. -/
def wBehaviorPanic : ReqCtx (Option Nat) → Option String := fun _ => some "boom"

/-- The sorted-set-plus-joined-string invariant of the `allowedMethods`
struct. -/
def methodsInv {α : Type} (e : EngineState α) : Prop :=
  e.allowedMethods.Sorted strLe ∧ e.allowedMethods.Nodup ∧
  e.allowedStr = String.intercalate "," e.allowedMethods

/-! ### Helper lemmas -/

/-- `Register` on a node with no nil unit does not panic and appends exactly
one registration call to the router. -/
theorem register_ok {α : Type} (e : EngineState α) (n : Node α)
    (h : (n.middlewares ++ [n.handler]).any Option.isNone = false) :
    (register e n).1 = none ∧
    (register e n).2.routeCalls =
      e.routeCalls ++ [(n.method, n.path, ⟨n.middlewares ++ [n.handler], n.path⟩)] := by
  unfold register
  simp only [h, Bool.false_eq_true, if_false]
  split <;> exact ⟨rfl, rfl⟩

/-- What `Register` does to the `allowedMethods` struct: either it leaves
both fields unchanged (nil-unit panic, or method already present), or the
method was new and the set is re-sorted and re-joined. -/
theorem register_methods_spec {α : Type} (e : EngineState α) (n : Node α) :
    ((register e n).2.allowedMethods = e.allowedMethods ∧
      (register e n).2.allowedStr = e.allowedStr) ∨
    (n.method ∉ e.allowedMethods ∧
      (register e n).2.allowedMethods =
        List.insertionSort strLe (e.allowedMethods ++ [n.method]) ∧
      (register e n).2.allowedStr =
        String.intercalate "," (register e n).2.allowedMethods) := by
  by_cases hnil : (n.middlewares ++ [n.handler]).any Option.isNone = true
  · left
    constructor <;> simp [register, hnil]
  · by_cases hmem : n.method ∈ e.allowedMethods
    · left
      constructor <;> simp [register, hnil, hmem]
    · right
      refine ⟨hmem, ?_, ?_⟩ <;> simp [register, hnil, hmem]

/-- `Register` preserves the sorted/nodup/joined-string invariant. -/
theorem register_methodsInv {α : Type} (e : EngineState α) (n : Node α)
    (h : methodsInv e) : methodsInv (register e n).2 := by
  rcases register_methods_spec e n with ⟨h1, h2⟩ | ⟨hmem, h1, h2⟩
  · exact ⟨h1 ▸ h.1, h1 ▸ h.2.1, by rw [h1, h2]; exact h.2.2⟩
  · have hperm : List.Perm (List.insertionSort strLe (e.allowedMethods ++ [n.method]))
        (e.allowedMethods ++ [n.method]) :=
      List.perm_insertionSort _ _
    refine ⟨?_, ?_, h2⟩
    · rw [h1]
      exact List.sorted_insertionSort _ _
    · rw [h1]
      exact hperm.symm.nodup (by simp [List.nodup_append, h.2.1, hmem])

/-- `Register` never removes a method from the allowed set. -/
theorem register_methods_mono {α : Type} (e : EngineState α) (n : Node α)
    (x : String) (hx : x ∈ e.allowedMethods) :
    x ∈ (register e n).2.allowedMethods := by
  rcases register_methods_spec e n with ⟨h1, _⟩ | ⟨_, h1, _⟩
  · exact h1 ▸ hx
  · rw [h1]
    exact ((List.perm_insertionSort _ _).mem_iff).mpr (by simp [hx])

/-- The invariant holds after any sequence of `Register` calls. -/
theorem foldRegister_methodsInv {α : Type} (e : EngineState α) (ns : List (Node α))
    (h : methodsInv e) : methodsInv (foldRegister e ns) := by
  induction ns generalizing e with
  | nil => exact h
  | cons n rest ih => exact ih _ (register_methodsInv e n h)

/-- Monotonicity across a whole sequence of `Register` calls. -/
theorem foldRegister_methods_mono {α : Type} (e : EngineState α) (ns : List (Node α))
    (x : String) (hx : x ∈ e.allowedMethods) :
    x ∈ (foldRegister e ns).allowedMethods := by
  induction ns generalizing e with
  | nil => exact hx
  | cons n rest ih => exact ih _ (register_methods_mono e n x hx)

/-- One `Next` call never changes the middleware list and keeps the cursor
within `0 ≤ curMW ≤ length`. -/
theorem ReqCtx.next_state {α : Type} (c : ReqCtx α) :
    (c.next.1).middlewares = c.middlewares ∧
    (c.curMW ≤ c.middlewares.length → (c.next.1).curMW ≤ c.middlewares.length) := by
  unfold ReqCtx.next
  split
  · exact ⟨rfl, fun h => h⟩
  · rename_i hlt
    refine ⟨rfl, fun _ => ?_⟩
    simpa using Nat.lt_of_not_le (fun hge => hlt hge)

/-- Any number of `Next` calls preserves the middleware list and the cursor
bound. -/
theorem ReqCtx.applyNexts_state {α : Type} (c : ReqCtx α) (n : Nat)
    (h : c.curMW ≤ c.middlewares.length) :
    (c.applyNexts n).middlewares = c.middlewares ∧
    (c.applyNexts n).curMW ≤ c.middlewares.length := by
  induction n generalizing c with
  | zero => exact ⟨rfl, h⟩
  | succ n ih =>
    have hs := ReqCtx.next_state c
    have := ih c.next.1 (hs.1 ▸ hs.2 h)
    simpa [ReqCtx.applyNexts, hs.1] using this

/-- Inversion of dispatch: whenever `serveHTTP` runs a chain, the context it
built has cursor `0`. -/
theorem serveHTTP_chainRun_inv {α : Type} (e : EngineState α)
    (lookup : String → String → Option (RouterValue α) × List UrlParam × Bool)
    (behavior : ReqCtx (Option α) → Option String)
    (logId stack : String) (req : Request) (ctx : ReqCtx (Option α))
    (pm : Option String)
    (hout : (serveHTTP e lookup behavior logId stack req).outcome = .chainRun ctx pm) :
    ctx.curMW = 0 := by
  unfold serveHTTP at hout
  by_cases hm : req.method ∈ e.allowedMethods
  · by_cases hp : req.path = ""
    · simp [hm, hp] at hout
    · rcases hlk : lookup req.method req.path with ⟨v, params, r⟩
      cases v with
      | some h =>
        cases hb : behavior ⟨h.middlewares, 0, params, h.matchPath⟩ with
        | some msg =>
          simp [hm, hp, hlk, hb] at hout
          rw [← hout.1]
        | none =>
          simp [hm, hp, hlk, hb] at hout
          rw [← hout.1]
      | none =>
        cases r <;> simp [hm, hp, hlk] at hout
  · simp [hm] at hout

/-! ### Claims -/

/-- Claim C1, counterexample.  In the `server.go` implementation
(`engineContext.Next`), a context whose middleware cursor is exhausted — the
terminal state, reached e.g. after the handler has already been invoked once —
does return `false`, but it is not a no-op: it invokes a unit (the terminal
handler) on that very call, contradicting "returns false immediately without
invoking any unit". -/
theorem c1_counterexample :
    (EngineCtx.next (⟨7, []⟩ : EngineCtx Nat)).2.2 = false ∧
    (EngineCtx.next (⟨7, []⟩ : EngineCtx Nat)).2.1 ≠ none := by
  constructor
  · rfl
  · intro h
    simp [EngineCtx.next] at h

/-- Claim C1, amended: the stated advance contract holds exactly for the
index-cursor implementation `reqContext.Next` (at end of chain: `false`,
nothing invoked, state unchanged; otherwise: cursor incremented, the unit at
the pre-increment index invoked, `true`).  For `server.go`'s
`engineContext.Next` there is no terminal no-op: with a nil middleware cursor
it invokes the terminal handler and returns `false` (so a repeated call
re-invokes the handler); with a non-nil cursor it invokes the middleware at
the cursor, advances the cursor past it, and returns `true`. -/
theorem c1_next_both_implementations {α : Type} (c : ReqCtx α) (d : EngineCtx α) :
    (c.curMW ≥ c.middlewares.length → c.next = (c, none, false)) ∧
    (c.curMW < c.middlewares.length →
      c.next = ({ c with curMW := c.curMW + 1 }, c.middlewares[c.curMW]?, true) ∧
      (c.next.2.1).isSome = true) ∧
    (d.curMW = [] → d.next = (d, some d.handler, false)) ∧
    (d.curMW ≠ [] →
      d.next = (⟨d.handler, d.curMW.tail⟩, d.curMW.head?, true) ∧
      (d.next.2.1).isSome = true) := by
  refine ⟨fun h => ?_, fun h => ?_, fun h => ?_, fun h => ?_⟩
  · simp [ReqCtx.next, h]
  · constructor
    · simp [ReqCtx.next, Nat.not_le.mpr h]
    · simp [ReqCtx.next, Nat.not_le.mpr h, List.getElem?_eq_getElem h]
  · cases d with
    | mk handler curMW => cases curMW with
      | nil => rfl
      | cons m rest => simp at h
  · cases d with
    | mk handler curMW => cases curMW with
      | nil => simp at h
      | cons m rest => exact ⟨rfl, rfl⟩

/-- Witness for C1's amended theorem at concrete contexts: a `reqContext` at
the end of its chain and one strictly inside it, and an `engineContext` with
nil and non-nil middleware cursors. -/
theorem c1_witness :
    ((2 : Nat) ≥ ([10, 20] : List Nat).length ∧
      (ReqCtx.next ⟨[10, 20], 2, [], "/p"⟩ : ReqCtx Nat × Option Nat × Bool) =
        (⟨[10, 20], 2, [], "/p"⟩, none, false)) ∧
    ((0 : Nat) < ([10, 20] : List Nat).length ∧
      (ReqCtx.next ⟨[10, 20], 0, [], "/p"⟩ : ReqCtx Nat × Option Nat × Bool) =
        (⟨[10, 20], 1, [], "/p"⟩, some 10, true)) ∧
    (EngineCtx.next (⟨7, []⟩ : EngineCtx Nat) = (⟨7, []⟩, some 7, false)) ∧
    (EngineCtx.next (⟨7, [5, 6]⟩ : EngineCtx Nat) = (⟨7, [6]⟩, some 5, true)) := by
  have h1 := c1_next_both_implementations (⟨[10, 20], 2, [], "/p"⟩ : ReqCtx Nat) ⟨7, []⟩
  have h2 := c1_next_both_implementations (⟨[10, 20], 0, [], "/p"⟩ : ReqCtx Nat) ⟨7, [5, 6]⟩
  refine ⟨⟨by decide, h1.1 (by decide)⟩, ⟨by decide, ?_⟩,
    h1.2.2.1 rfl, (h2.2.2.2 (by decide)).1⟩
  have := (h2.2.1 (by decide)).1
  simpa using this

/-- Claim C9: on every dispatch branch — 405 method gate, empty-path
redirect, 404, trailing-slash redirect, chain execution with or without a
recovered panic — the deferred header write installs the correlation-id
response header before `ServeHTTP` returns. -/
theorem c9_logid_header_always {α : Type} (e : EngineState α)
    (lookup : String → String → Option (RouterValue α) × List UrlParam × Bool)
    (behavior : ReqCtx (Option α) → Option String)
    (logId stack : String) (req : Request) :
    (logIdContextKey, logId) ∈ (serveHTTP e lookup behavior logId stack req).headersSet := by
  unfold serveHTTP
  by_cases hm : req.method ∈ e.allowedMethods
  · by_cases hp : req.path = ""
    · simp [hm, hp]
    · rcases hlk : lookup req.method req.path with ⟨v, params, r⟩
      cases v with
      | some h =>
        cases hb : behavior ⟨h.middlewares, 0, params, h.matchPath⟩ with
        | some msg => simp [hm, hp, hlk, hb]
        | none => simp [hm, hp, hlk, hb]
      | none => cases r <;> simp [hm, hp, hlk]
  · simp [hm]

/-- Helper: on any non-empty request path, dispatch never takes the
empty-path-normalization branch. -/
theorem serveHTTP_not_root {α : Type} (e : EngineState α)
    (lookup : String → String → Option (RouterValue α) × List UrlParam × Bool)
    (behavior : ReqCtx (Option α) → Option String)
    (logId stack : String) (req : Request) (hp : req.path ≠ "") :
    (serveHTTP e lookup behavior logId stack req).outcome.isRootRedirect = false := by
  unfold serveHTTP
  by_cases hm : req.method ∈ e.allowedMethods
  · rcases hlk : lookup req.method req.path with ⟨v, params, r⟩
    cases v with
    | some h =>
      cases hb : behavior ⟨h.middlewares, 0, params, h.matchPath⟩ with
      | some msg => simp [hm, hp, hlk, hb, Outcome.isRootRedirect]
      | none => simp [hm, hp, hlk, hb, Outcome.isRootRedirect]
    | none => cases r <;> simp [hm, hp, hlk, Outcome.isRootRedirect]
  · simp [hm, Outcome.isRootRedirect]

/-- Claim C10: the context built by dispatch starts with cursor `0`; `Next`
is the only cursor mutation and increments only strictly below the chain
length, so after any number of (sequential or nested) `Next` calls the cursor
stays within `0 ≤ curMW ≤ length`, the slice access inside `Next` is in
bounds whenever it happens, and at the boundary `Next` is a total no-op. -/
theorem c10_cursor_bounds {α : Type} (e : EngineState α)
    (lookup : String → String → Option (RouterValue α) × List UrlParam × Bool)
    (behavior : ReqCtx (Option α) → Option String)
    (logId stack : String) (req : Request) (ctx : ReqCtx (Option α))
    (pm : Option String)
    (hout : (serveHTTP e lookup behavior logId stack req).outcome = .chainRun ctx pm)
    (n : Nat) :
    ctx.curMW = 0 ∧
    (ctx.applyNexts n).middlewares = ctx.middlewares ∧
    (ctx.applyNexts n).curMW ≤ ctx.middlewares.length ∧
    ((ctx.applyNexts n).curMW < ctx.middlewares.length →
      ((ctx.applyNexts n).next.2.1).isSome = true) ∧
    ((ctx.applyNexts n).curMW ≥ ctx.middlewares.length →
      (ctx.applyNexts n).next = ((ctx.applyNexts n), none, false)) := by
  have h0 : ctx.curMW = 0 :=
    serveHTTP_chainRun_inv e lookup behavior logId stack req ctx pm hout
  have hst := ReqCtx.applyNexts_state ctx n (by omega)
  refine ⟨h0, hst.1, hst.2, fun hlt => ?_, fun hge => ?_⟩
  · have hlt' : (ctx.applyNexts n).curMW < (ctx.applyNexts n).middlewares.length := by
      rw [hst.1]; exact hlt
    simp [ReqCtx.next, Nat.not_le.mpr hlt', List.getElem?_eq_getElem hlt']
  · have hge' : (ctx.applyNexts n).curMW ≥ (ctx.applyNexts n).middlewares.length := by
      rw [hst.1]; exact hge
    simp [ReqCtx.next, hge']

/-- Witness for C10: a concrete dispatch hits the chain branch with cursor
`0`, and after one `Next` step the cursor is still within the 2-element
chain. -/
theorem c10_witness :
    (serveHTTP wEngine wLookupHit wBehaviorOk "id" "st" ⟨"GET", "/u"⟩).outcome =
      .chainRun ⟨[some 1, some 2], 0, [], "/u"⟩ none ∧
    (ReqCtx.curMW ⟨[some 1, some 2], 0, [], "/u"⟩ = 0 ∧
      (ReqCtx.applyNexts ⟨[some 1, some 2], 0, [], "/u"⟩ 1).curMW ≤ 2) := by
  have h := c10_cursor_bounds wEngine wLookupHit wBehaviorOk "id" "st" ⟨"GET", "/u"⟩
    ⟨[some 1, some 2], 0, [], "/u"⟩ none (by decide) 1
  exact ⟨by decide, h.1, h.2.2.1⟩

/-- Claim C2: an unregistered method is rejected at the gate — the `Allow`
header is set to the precomputed joined string, a 405 is written, nothing is
logged, the engine is untouched, and the whole result is independent of the
router and of every chain unit (no lookup, no unit invocation), whatever the
path. -/
theorem c2_method_gate {α : Type} (e : EngineState α)
    (lookup lookup2 : String → String → Option (RouterValue α) × List UrlParam × Bool)
    (behavior behavior2 : ReqCtx (Option α) → Option String)
    (logId stack : String) (req : Request)
    (hm : req.method ∉ e.allowedMethods) :
    serveHTTP e lookup behavior logId stack req =
      ⟨.methodNotAllowed e.allowedStr,
        [("Allow", e.allowedStr), (logIdContextKey, logId)], [], e⟩ ∧
    (serveHTTP e lookup behavior logId stack req).outcome.status = some 405 ∧
    serveHTTP e lookup behavior logId stack req =
      serveHTTP e lookup2 behavior2 logId stack req := by
  refine ⟨by simp [serveHTTP, hm], ?_, by simp [serveHTTP, hm]⟩
  simp [serveHTTP, hm, Outcome.status]

/-- Witness for C2: a `POST` against an engine that only ever saw `GET`,
checked against two different router/unit oracles. -/
theorem c2_witness :
    ("POST" ∉ wEngine.allowedMethods) ∧
    serveHTTP wEngine wLookupHit wBehaviorPanic "id" "st" ⟨"POST", "/u"⟩ =
      ⟨.methodNotAllowed "GET", [("Allow", "GET"), (logIdContextKey, "id")], [], wEngine⟩ ∧
    serveHTTP wEngine wLookupHit wBehaviorPanic "id" "st" ⟨"POST", "/u"⟩ =
      serveHTTP wEngine wLookupMiss wBehaviorOk "id" "st" ⟨"POST", "/u"⟩ := by
  have h := c2_method_gate wEngine wLookupHit wLookupMiss wBehaviorPanic wBehaviorOk
    "id" "st" ⟨"POST", "/u"⟩ (by decide)
  exact ⟨by decide, h.1, h.2.2⟩

/-- Claim C8: with the method gate passed and an empty path, dispatch
rewrites the path to the canonical root `"/"` and answers a 308 to it,
independently of the router (no lookup); the rewritten path is non-empty, and
a follow-up request for `"/"` can never take the empty-path branch again. -/
theorem c8_empty_path_redirect {α : Type} (e : EngineState α)
    (lookup lookup2 behavior3lk : String → String → Option (RouterValue α) × List UrlParam × Bool)
    (behavior behavior2 : ReqCtx (Option α) → Option String)
    (logId stack logId2 stack2 : String) (m : String)
    (hm : m ∈ e.allowedMethods) :
    serveHTTP e lookup behavior logId stack ⟨m, ""⟩ =
      ⟨.rootRedirect "/", [(logIdContextKey, logId)], [], e⟩ ∧
    (serveHTTP e lookup behavior logId stack ⟨m, ""⟩).outcome.status = some 308 ∧
    serveHTTP e lookup behavior logId stack ⟨m, ""⟩ =
      serveHTTP e lookup2 behavior2 logId stack ⟨m, ""⟩ ∧
    ("/" : String) ≠ "" ∧
    (serveHTTP e behavior3lk behavior2 logId2 stack2 ⟨m, "/"⟩).outcome.isRootRedirect =
      false := by
  refine ⟨by simp [serveHTTP, hm], by simp [serveHTTP, hm, Outcome.status],
    by simp [serveHTTP, hm], by decide, ?_⟩
  exact serveHTTP_not_root e behavior3lk behavior2 logId2 stack2 ⟨m, "/"⟩ (by simp)

/-- Witness for C8: a `GET` with empty path against the concrete engine is
redirected to `"/"` once, and the follow-up `GET /` (here: against a router
that flags a slash redirect) does not take the empty-path branch. -/
theorem c8_witness :
    ("GET" ∈ wEngine.allowedMethods) ∧
    serveHTTP wEngine wLookupHit wBehaviorOk "id" "st" ⟨"GET", ""⟩ =
      ⟨.rootRedirect "/", [(logIdContextKey, "id")], [], wEngine⟩ ∧
    (serveHTTP wEngine wLookupTsr wBehaviorOk "id2" "st2" ⟨"GET", "/"⟩).outcome.isRootRedirect =
      false := by
  have h := c8_empty_path_redirect wEngine wLookupHit wLookupTsr wLookupTsr
    wBehaviorOk wBehaviorOk "id" "st" "id2" "st2" "GET" (by decide)
  exact ⟨by decide, h.1, h.2.2.2.2⟩

/-- Claim C3: after any sequence of `Register` calls the allowed-methods set
is sorted and duplicate-free and the precomputed string is its comma-join;
the set only grows under further calls; and registering a method already
present changes neither the set nor the string. -/
theorem c3_allowed_methods {α : Type} (ns ms : List (Node α)) (n : Node α)
    (hmem : n.method ∈ (foldRegister (initialEngine α) ns).allowedMethods) :
    ((foldRegister (initialEngine α) ns).allowedMethods.Sorted strLe ∧
      (foldRegister (initialEngine α) ns).allowedMethods.Nodup) ∧
    (foldRegister (initialEngine α) ns).allowedStr =
      String.intercalate "," (foldRegister (initialEngine α) ns).allowedMethods ∧
    (∀ x ∈ (foldRegister (initialEngine α) ns).allowedMethods,
      x ∈ (foldRegister (foldRegister (initialEngine α) ns) ms).allowedMethods) ∧
    (register (foldRegister (initialEngine α) ns) n).2.allowedMethods =
      (foldRegister (initialEngine α) ns).allowedMethods ∧
    (register (foldRegister (initialEngine α) ns) n).2.allowedStr =
      (foldRegister (initialEngine α) ns).allowedStr := by
  have h0 : methodsInv (initialEngine α) := by
    refine ⟨List.sorted_nil, List.nodup_nil, ?_⟩
    rfl
  have hinv := foldRegister_methodsInv (initialEngine α) ns h0
  refine ⟨⟨hinv.1, hinv.2.1⟩, hinv.2.2,
    fun x hx => foldRegister_methods_mono _ ms x hx, ?_⟩
  rcases register_methods_spec (foldRegister (initialEngine α) ns) n with h | ⟨hnm, _, _⟩
  · exact h
  · exact absurd hmem hnm

/-- Witness for C3: register `GET` and `POST`, then `GET` again; the set is
the sorted `["GET", "POST"]` with string `"GET,POST"`, still contains `GET`
after registering `PUT`, and the re-registration of `GET` changes nothing. -/
theorem c3_witness :
    ("GET" ∈ (foldRegister (initialEngine Nat)
        [⟨"GET", "/a", [], some 1⟩, ⟨"POST", "/b", [], some 2⟩]).allowedMethods) ∧
    ((foldRegister (initialEngine Nat)
        [⟨"GET", "/a", [], some 1⟩, ⟨"POST", "/b", [], some 2⟩]).allowedMethods.Sorted strLe ∧
      (foldRegister (initialEngine Nat)
        [⟨"GET", "/a", [], some 1⟩, ⟨"POST", "/b", [], some 2⟩]).allowedMethods.Nodup) ∧
    (foldRegister (initialEngine Nat)
        [⟨"GET", "/a", [], some 1⟩, ⟨"POST", "/b", [], some 2⟩]).allowedStr =
      String.intercalate "," (foldRegister (initialEngine Nat)
        [⟨"GET", "/a", [], some 1⟩, ⟨"POST", "/b", [], some 2⟩]).allowedMethods ∧
    ("GET" ∈ (foldRegister (foldRegister (initialEngine Nat)
        [⟨"GET", "/a", [], some 1⟩, ⟨"POST", "/b", [], some 2⟩])
        [⟨"PUT", "/d", [], some 4⟩]).allowedMethods) ∧
    (register (foldRegister (initialEngine Nat)
        [⟨"GET", "/a", [], some 1⟩, ⟨"POST", "/b", [], some 2⟩])
        ⟨"GET", "/c", [], some 3⟩).2.allowedMethods =
      (foldRegister (initialEngine Nat)
        [⟨"GET", "/a", [], some 1⟩, ⟨"POST", "/b", [], some 2⟩]).allowedMethods ∧
    (register (foldRegister (initialEngine Nat)
        [⟨"GET", "/a", [], some 1⟩, ⟨"POST", "/b", [], some 2⟩])
        ⟨"GET", "/c", [], some 3⟩).2.allowedStr =
      (foldRegister (initialEngine Nat)
        [⟨"GET", "/a", [], some 1⟩, ⟨"POST", "/b", [], some 2⟩]).allowedStr := by
  have h := c3_allowed_methods (α := Nat)
    [⟨"GET", "/a", [], some 1⟩, ⟨"POST", "/b", [], some 2⟩]
    [⟨"PUT", "/d", [], some 4⟩] ⟨"GET", "/c", [], some 3⟩ (by decide)
  exact ⟨by decide, h.1, h.2.1, h.2.2.1 "GET" (by decide), h.2.2.2.1, h.2.2.2.2⟩

/-- Claim C7: `Register` panics (fatally, at registration time) as soon as
the chain — the node's middlewares with its handler appended — contains a nil
unit, and it does so before any mutation, returning the engine exactly as it
was; when every unit is non-nil the check raises no fault. -/
theorem c7_nil_unit_fatal {α : Type} (e : EngineState α) (n : Node α) :
    ((n.middlewares ++ [n.handler]).any Option.isNone = true →
      register e n = (some "middleware or handle of a node is nil", e)) ∧
    ((n.middlewares ++ [n.handler]).any Option.isNone = false →
      (register e n).1 = none) := by
  constructor
  · intro h
    simp [register, h]
  · intro h
    exact (register_ok e n h).1

/-- Witness for C7: a node with a nil middleware aborts leaving `wEngine`
untouched; the same node with all units present registers without fault. -/
theorem c7_witness :
    register wEngine (⟨"GET", "/a", [some 1, none], some 2⟩ : Node Nat) =
      (some "middleware or handle of a node is nil", wEngine) ∧
    (register (initialEngine Nat) (⟨"GET", "/a", [some 1], some 2⟩ : Node Nat)).1 = none := by
  exact ⟨(c7_nil_unit_fatal wEngine ⟨"GET", "/a", [some 1, none], some 2⟩).1 (by decide),
    (c7_nil_unit_fatal (initialEngine Nat) ⟨"GET", "/a", [some 1], some 2⟩).2 (by decide)⟩

/-- Claim C4: a panic in a chain unit is recovered exactly once at the
`ServeHTTP` boundary — the result is an ordinary return whose critical log
holds exactly one record, carrying the panic value and the captured stack —
and the registration state is untouched, so a subsequent independent request
against the resulting engine is dispatched exactly as against the original. -/
theorem c4_panic_containment {α : Type} (e : EngineState α)
    (lookup lookup2 : String → String → Option (RouterValue α) × List UrlParam × Bool)
    (behavior behavior2 : ReqCtx (Option α) → Option String)
    (logId stack logId2 stack2 : String) (req req2 : Request)
    (h : RouterValue α) (params : List UrlParam) (tsr : Bool) (msg : String)
    (hm : req.method ∈ e.allowedMethods) (hp : req.path ≠ "")
    (hl : lookup req.method req.path = (some h, params, tsr))
    (hb : behavior ⟨h.middlewares, 0, params, h.matchPath⟩ = some msg) :
    serveHTTP e lookup behavior logId stack req =
      ⟨.chainRun ⟨h.middlewares, 0, params, h.matchPath⟩ (some msg),
        [(logIdContextKey, logId)], [⟨msg, stack⟩], e⟩ ∧
    (serveHTTP e lookup behavior logId stack req).criticalLogs.length = 1 ∧
    (serveHTTP e lookup behavior logId stack req).engineAfter = e ∧
    serveHTTP (serveHTTP e lookup behavior logId stack req).engineAfter
        lookup2 behavior2 logId2 stack2 req2 =
      serveHTTP e lookup2 behavior2 logId2 stack2 req2 := by
  have h1 : serveHTTP e lookup behavior logId stack req =
      ⟨.chainRun ⟨h.middlewares, 0, params, h.matchPath⟩ (some msg),
        [(logIdContextKey, logId)], [⟨msg, stack⟩], e⟩ := by
    simp [serveHTTP, hm, hp, hl, hb]
  exact ⟨h1, by simp [h1], by rw [h1], by rw [h1]⟩

/-- Witness for C4: a `GET /u` whose chain panics with `"boom"` yields one
critical record and leaves the engine as it was, and a second identical
request with a well-behaved chain dispatches normally. -/
theorem c4_witness :
    serveHTTP wEngine wLookupHit wBehaviorPanic "id" "st" ⟨"GET", "/u"⟩ =
      ⟨.chainRun ⟨[some 1, some 2], 0, [], "/u"⟩ (some "boom"),
        [(logIdContextKey, "id")], [⟨"boom", "st"⟩], wEngine⟩ ∧
    serveHTTP (serveHTTP wEngine wLookupHit wBehaviorPanic "id" "st" ⟨"GET", "/u"⟩).engineAfter
        wLookupHit wBehaviorOk "id2" "st2" ⟨"GET", "/u"⟩ =
      serveHTTP wEngine wLookupHit wBehaviorOk "id2" "st2" ⟨"GET", "/u"⟩ := by
  have h := c4_panic_containment wEngine wLookupHit wLookupHit wBehaviorPanic wBehaviorOk
    "id" "st" "id2" "st2" ⟨"GET", "/u"⟩ ⟨"GET", "/u"⟩ wValue [] false "boom"
    (by decide) (by decide) rfl rfl
  exact ⟨h.1, h.2.2.2⟩

/-- Helper: the trailing-slash toggle is an involution on every character
list that does not end in two slashes. -/
theorem toggleSlashL_roundtrip (p : List Char) (hss : ¬ (['/', '/'] <:+ p)) :
    toggleSlashL (toggleSlashL p) = p := by
  by_cases hl : p.getLast? = some '/'
  · have hp : p.dropLast ++ ['/'] = p := List.dropLast_append_getLast? _ hl
    have hd : ¬ p.dropLast.getLast? = some '/' := by
      intro hd
      apply hss
      have hp2 : p.dropLast.dropLast ++ ['/'] = p.dropLast :=
        List.dropLast_append_getLast? _ hd
      refine ⟨p.dropLast.dropLast, ?_⟩
      calc p.dropLast.dropLast ++ ['/', '/']
      _ = (p.dropLast.dropLast ++ ['/']) ++ ['/'] := by
        rw [List.append_assoc]
        rfl
      _ = p.dropLast ++ ['/'] := by rw [hp2]
      _ = p := hp
    have e1 : toggleSlashL p = p.dropLast := by
      unfold toggleSlashL
      rw [if_pos hl]
    have e2 : toggleSlashL p.dropLast = p.dropLast ++ ['/'] := by
      unfold toggleSlashL
      rw [if_neg hd]
    rw [e1, e2, hp]
  · have e1 : toggleSlashL p = p ++ ['/'] := by
      unfold toggleSlashL
      rw [if_neg hl]
    have e2 : toggleSlashL (p ++ ['/']) = p := by
      unfold toggleSlashL
      rw [if_pos (by simp), List.dropLast_concat]
    rw [e1, e2]

/-- Claim C5, counterexample.  The trailing-slash toggle is not an involution
on every path: on `"a//"` the first toggle strips one slash and the second
strips another instead of restoring it, so toggling twice gives `"a"`. -/
theorem c5_counterexample :
    toggleSlash (toggleSlash "a//") ≠ "a//" ∧ toggleSlash (toggleSlash "a//") = "a" := by
  have he : toggleSlash (toggleSlash "a//") = "a" := by decide
  refine ⟨?_, he⟩
  rw [he]
  decide

/-- Claim C5, amended: on every no-match-with-redirect-candidate lookup the
response is, unconditionally, a 308 permanent redirect to the slash-toggled
path; the toggle applied twice returns the original path for every path that
does not end in two consecutive slashes (on a path ending in `"//"` both
applications strip, so the round trip fails — see the counterexample). -/
theorem c5_tsr_redirect_roundtrip {α : Type} (e : EngineState α)
    (lookup : String → String → Option (RouterValue α) × List UrlParam × Bool)
    (behavior : ReqCtx (Option α) → Option String)
    (logId stack : String) (req : Request) (params : List UrlParam)
    (hm : req.method ∈ e.allowedMethods) (hp : req.path ≠ "")
    (hl : lookup req.method req.path = (none, params, true)) :
    serveHTTP e lookup behavior logId stack req =
      ⟨.tsrRedirect (toggleSlash req.path), [(logIdContextKey, logId)], [], e⟩ ∧
    (serveHTTP e lookup behavior logId stack req).outcome.status = some 308 ∧
    (¬ (['/', '/'] <:+ req.path.data) →
      toggleSlash (toggleSlash req.path) = req.path) := by
  refine ⟨by simp [serveHTTP, hm, hp, hl],
    by simp [serveHTTP, hm, hp, hl, Outcome.status], fun hss => ?_⟩
  show (⟨toggleSlashL (toggleSlashL req.path.data)⟩ : String) = req.path
  rw [toggleSlashL_roundtrip req.path.data hss]

/-- Witness for C5's amended theorem: `GET /users` against a router that
reports only a redirect candidate is answered with a 308 to `"/users/"`, and
toggling `"/users"` twice gives back `"/users"`. -/
theorem c5_witness :
    serveHTTP wEngine wLookupTsr wBehaviorOk "id" "st" ⟨"GET", "/users"⟩ =
      ⟨.tsrRedirect (toggleSlash "/users"), [(logIdContextKey, "id")], [], wEngine⟩ ∧
    toggleSlash "/users" = "/users/" ∧
    toggleSlash (toggleSlash "/users") = "/users" := by
  have h := c5_tsr_redirect_roundtrip wEngine wLookupTsr wBehaviorOk "id" "st"
    ⟨"GET", "/users"⟩ [] (by decide) (by decide) rfl
  exact ⟨h.1, rfl, h.2.2 (by decide)⟩

/-- Claim C6, code-bug evaluation at the failing input.  `RegisterGroup` on
group `/api` with shared middleware slice `[L]` (unit 0, spare capacity) and
children `GET /a {[], H1 = unit 2}` then `POST /b {[M2 = unit 1], H2 = unit 3}`
completes without panic and registers both routes, but the second iteration's
`append(group.Middlewares, ...)` writes `M2` (and then `H2`) into the backing
array still viewed by `/api/a`'s registered chain: `/api/a`'s chain reads
back as `[L, M2]` — its handler `H1` overwritten by the other child's
middleware — instead of the `[L, H1]` the claim (and the spec's invariant)
requires, while `/api/b`'s chain `[L, M2, H2]` is as claimed. -/
theorem c6_group_aliasing_bug :
    (registerGroupSlice (fun n => n) bugEngine bugGroup).1 = none ∧
    (registerGroupSlice (fun n => n) bugEngine bugGroup).2.routeCalls =
      [("GET", "/api/a", ⟨0, 2⟩, "/api/a"), ("POST", "/api/b", ⟨0, 3⟩, "/api/b")] ∧
    sliceRead (registerGroupSlice (fun n => n) bugEngine bugGroup).2.heap ⟨0, 2⟩ =
      [some 0, some 1] ∧
    sliceRead (registerGroupSlice (fun n => n) bugEngine bugGroup).2.heap ⟨0, 2⟩ ≠
      [some 0, some 2] ∧
    sliceRead (registerGroupSlice (fun n => n) bugEngine bugGroup).2.heap ⟨0, 3⟩ =
      [some 0, some 1, some 3] := by
  refine ⟨by decide, by decide, by decide, by decide, by decide⟩

end EasyServer
